import Mathlib

/-!
Verification of the session05 telemetry pipeline of the `rustfunda`
repository: the shared wire codec (`session05/shared_data/src/lib.rs`),
the collector sampler and sender (`session05/collector/src/collector.rs`,
`session05/collector/src/main.rs`), the receiver's per-connection read
loop (`session05/server/src/receiver.rs`), the unix-time helpers
(`util/src/datetime/unix.rs`) and the `Signal` primitive
(`util/src/threading.rs`).

Bytes are modelled as natural numbers below 256, byte strings as
`List Nat`; Rust machine integers are `Nat` with explicit `% 2 ^ w`
where width matters.
-/

set_option maxRecDepth 100000
set_option maxHeartbeats 1000000

/-! ## Byte-level utilities (`byteorder` big-endian reads and writes) -/

/-- Big-endian serialization of `v` into exactly `k` bytes, as
`byteorder`'s `write_uNNN::<BigEndian>` emits them (most significant
byte first; only the low `8 * k` bits of `v` are representable). -/
def toBytesBE : Nat → Nat → List Nat
  | 0, _ => []
  | k + 1, v => toBytesBE k (v / 256) ++ [v % 256]

/-- Big-endian interpretation of a byte string, as `byteorder`'s
`read_uNNN::<BigEndian>` computes it. -/
def fromBytesBE (bs : List Nat) : Nat :=
  bs.foldl (fun a b => a * 256 + b) 0

/-- A `read_exact` of `k` bytes from the unread part of a cursor:
succeeds with the bytes read and the rest exactly when at least `k`
bytes remain, and fails (io `UnexpectedEof`) otherwise. -/
def readN (k : Nat) (bs : List Nat) : Option (List Nat × List Nat) :=
  if k ≤ bs.length then some (bs.take k, bs.drop k) else none

theorem length_toBytesBE (k v : Nat) : (toBytesBE k v).length = k := by
  induction k generalizing v with
  | zero => rfl
  | succ k ih => simp [toBytesBE, ih]

theorem foldl_toBytesBE (k : Nat) : ∀ v a : Nat,
    (toBytesBE k v).foldl (fun a b => a * 256 + b) a = a * 2 ^ (8 * k) + v % 2 ^ (8 * k) := by
  induction k with
  | zero => intro v a; simp [toBytesBE, Nat.mod_one]
  | succ k ih =>
    intro v a
    have hpow : 2 ^ (8 * (k + 1)) = 256 * 2 ^ (8 * k) := by
      rw [Nat.mul_add, Nat.pow_add]; ring
    have hmod : v % (256 * 2 ^ (8 * k)) = v % 256 + 256 * (v / 256 % 2 ^ (8 * k)) :=
      Nat.mod_mul
    simp only [toBytesBE, List.foldl_append, List.foldl_cons, List.foldl_nil, ih, hpow, hmod]
    ring

theorem fromBytesBE_toBytesBE (k v : Nat) :
    fromBytesBE (toBytesBE k v) = v % 2 ^ (8 * k) := by
  have := foldl_toBytesBE k v 0
  simpa [fromBytesBE] using this

theorem readN_append (bs rest : List Nat) :
    readN bs.length (bs ++ rest) = some (bs, rest) := by
  simp [readN, List.take_left, List.drop_left]

theorem readN_eq_none_iff (k : Nat) (bs : List Nat) :
    readN k bs = none ↔ bs.length < k := by
  simp only [readN]
  split <;> simp_all

/-! ## CRC-32 (`crc32fast::hash`, the CRC-32/ISO-HDLC checksum) -/

/-- One bit-step of the reflected CRC-32 algorithm with the reversed
polynomial `0xEDB88320`. -/
def crc32Step (c : Nat) : Nat :=
  if c % 2 = 1 then Nat.xor (c / 2) 0xEDB88320 else c / 2

def crc32Steps : Nat → Nat → Nat
  | 0, c => c
  | k + 1, c => crc32Steps k (crc32Step c)

/-- Fold one input byte into the running CRC state. -/
def crc32UpdateByte (c b : Nat) : Nat :=
  crc32Steps 8 (Nat.xor c (b % 256))

/-- `crc32fast::hash`: the CRC-32/ISO-HDLC checksum of a byte string
(initial state and final xor `0xFFFFFFFF`). -/
def crc32Hash (bs : List Nat) : Nat :=
  Nat.xor (bs.foldl crc32UpdateByte 0xFFFFFFFF) 0xFFFFFFFF

theorem crc32Step_lt (c : Nat) (h : c < 2 ^ 32) : crc32Step c < 2 ^ 32 := by
  unfold crc32Step
  split
  · exact Nat.xor_lt_two_pow (by omega) (by norm_num)
  · omega

theorem crc32Steps_lt (k c : Nat) (h : c < 2 ^ 32) : crc32Steps k c < 2 ^ 32 := by
  induction k generalizing c with
  | zero => exact h
  | succ k ih => exact ih _ (crc32Step_lt c h)

theorem crc32UpdateByte_lt (c b : Nat) (h : c < 2 ^ 32) : crc32UpdateByte c b < 2 ^ 32 :=
  crc32Steps_lt 8 _ (Nat.xor_lt_two_pow h (by have := Nat.mod_lt b (y := 256) (by omega); omega))

theorem crc32Hash_lt (bs : List Nat) : crc32Hash bs < 2 ^ 32 := by
  unfold crc32Hash
  refine Nat.xor_lt_two_pow ?_ (by norm_num)
  have h : ∀ l : List Nat, ∀ c : Nat, c < 2 ^ 32 → l.foldl crc32UpdateByte c < 2 ^ 32 := by
    intro l
    induction l with
    | nil => intro c hc; exact hc
    | cons b l ih => intro c hc; exact ih _ (crc32UpdateByte_lt c b hc)
  exact h bs 0xFFFFFFFF (by norm_num)


/-! ## The JSON payload (`serde_json` on `CollectorCommand`) -/

/-- Well-formedness of the decimal rendering of a finite `f32` value:
nonempty, and free of `,` (44) and `}` (125), the two bytes that can
terminate a JSON number token inside this payload. -/
def F32Wf (bs : List Nat) : Prop :=
  bs ≠ [] ∧ ∀ b ∈ bs, b ≠ 44 ∧ b ≠ 125

instance (bs : List Nat) : Decidable (F32Wf bs) := by
  unfold F32Wf; infer_instance

/-- A finite `f32` value as `serde_json` handles it, identified with its
decimal rendering: `serde_json` prints a finite float as the shortest
decimal string that parses back to the same value, so the rendering is
injective on finite `f32` values and a faithful representation of them. -/
def F32 : Type := {bs : List Nat // F32Wf bs}

instance : DecidableEq F32 := fun a b =>
  if h : a.val = b.val then .isTrue (Subtype.ext h)
  else .isFalse (fun hh => h (congrArg Subtype.val hh))

/-- `Metrics` from `shared_data/src/lib.rs`. The Rust `u64`/`usize`
fields are `Nat` (their machine ranges appear as hypotheses where they
matter); the `f32` fields carry their `serde_json` renderings. -/
structure Metrics where
  total_memory : Nat
  used_memory : Nat
  cpus : Nat
  cpu_usage : F32
  avg_cpu_usage : F32
deriving DecidableEq

/-- `CollectorCommand` from `shared_data/src/lib.rs` (its sole variant). -/
inductive CollectorCommand where
  | SubmitData (collector_id : Nat) (metrics : Metrics)
deriving DecidableEq

/-- The UTF-8 bytes of an ASCII string literal. -/
def asciiBytes (s : String) : List Nat :=
  s.toList.map Char.toNat

/-- Decimal digit bytes of `n`, most significant first; `fuel`-driven so
that it is structurally recursive (callers pass `fuel = n`, which always
suffices since a number has at most as many digits as its value). -/
def natDigitsAux : Nat → Nat → List Nat
  | 0, _ => []
  | fuel + 1, n => if n = 0 then [] else natDigitsAux fuel (n / 10) ++ [48 + n % 10]

/-- The ASCII decimal rendering of `n`, exactly as `serde_json` prints
an unsigned integer. -/
def natBytes (n : Nat) : List Nat :=
  if n = 0 then [48] else natDigitsAux n n

/-- `serde_json::to_string` output for a `Metrics` value (object fields
in declaration order, no whitespace). -/
def metricsJson (m : Metrics) : List Nat :=
  asciiBytes "\x7b\"total_memory\":" ++ natBytes m.total_memory
    ++ asciiBytes ",\"used_memory\":" ++ natBytes m.used_memory
    ++ asciiBytes ",\"cpus\":" ++ natBytes m.cpus
    ++ asciiBytes ",\"cpu_usage\":" ++ m.cpu_usage.val
    ++ asciiBytes ",\"avg_cpu_usage\":" ++ m.avg_cpu_usage.val
    ++ asciiBytes "\x7d"

/-- `serde_json::to_string(&command).as_bytes()`: the externally tagged
JSON text of a `CollectorCommand`. -/
def commandJson : CollectorCommand → List Nat
  | .SubmitData collector_id metrics =>
      asciiBytes "\x7b\"SubmitData\":\x7b\"collector_id\":" ++ natBytes collector_id
        ++ asciiBytes ",\"metrics\":" ++ metricsJson metrics
        ++ asciiBytes "\x7d\x7d"

/-! Model of `serde_json::from_slice::<CollectorCommand>` on the
canonical whitespace-free documents that `to_string` produces: a
recursive-descent parse of the fixed document shape. `from_slice`
consumes the whole input, so trailing bytes are an error. -/

/-- Expect the literal byte sequence `lit` at the head of the input and
return the remainder. -/
def expectLit : List Nat → List Nat → Option (List Nat)
  | [], bs => some bs
  | _ :: _, [] => none
  | l :: ls, b :: bs => if b = l then expectLit ls bs else none

def isDigitByte (b : Nat) : Bool :=
  decide (48 ≤ b) && decide (b ≤ 57)

/-- Split a leading run of decimal digit bytes from the input. -/
def takeDigits : List Nat → List Nat × List Nat
  | [] => ([], [])
  | b :: bs =>
    if isDigitByte b then (b :: (takeDigits bs).1, (takeDigits bs).2)
    else ([], b :: bs)

/-- Parse a nonempty run of decimal digits as an unsigned JSON integer. -/
def parseNatTok (bs : List Nat) : Option (Nat × List Nat) :=
  match takeDigits bs with
  | ([], _) => none
  | (d :: ds, rest) => some ((d :: ds).foldl (fun a b => a * 10 + (b - 48)) 0, rest)

/-- Split a leading number token from the input: everything up to the
next `,` (44) or `}` (125), the bytes that end a number inside this
payload. -/
def takeNumTok : List Nat → List Nat × List Nat
  | [] => ([], [])
  | b :: bs =>
    if b = 44 ∨ b = 125 then ([], b :: bs)
    else (b :: (takeNumTok bs).1, (takeNumTok bs).2)

theorem takeNumTok_wf (bs : List Nat) :
    ∀ b ∈ (takeNumTok bs).1, b ≠ 44 ∧ b ≠ 125 := by
  induction bs with
  | nil => simp [takeNumTok]
  | cons b bs ih =>
    intro x hx
    by_cases h : b = 44 ∨ b = 125
    · simp [takeNumTok, h] at hx
    · simp only [takeNumTok, if_neg h, List.mem_cons] at hx
      rcases hx with rfl | hx
      · exact ⟨fun h44 => h (Or.inl h44), fun h125 => h (Or.inr h125)⟩
      · exact ih x hx

/-- Parse a float token (model of `serde_json`'s number parse for the
`f32` fields): a nonempty run of bytes up to the next `,` or `}`. -/
def parseF32Tok (bs : List Nat) : Option (F32 × List Nat) :=
  match h : takeNumTok bs with
  | ([], _) => none
  | (t :: ts, rest) =>
      some (⟨t :: ts, List.cons_ne_nil t ts, by
        have := takeNumTok_wf bs; rw [h] at this; exact this⟩, rest)

/-- Model of the `Metrics` object deserializer on canonical documents:
the fixed literal frame of the object interleaved with its number
tokens; returns the value and the unconsumed remainder. -/
def parseMetricsObj (bs : List Nat) : Option (Metrics × List Nat) :=
  (expectLit (asciiBytes "\x7b\"total_memory\":") bs).bind fun r1 =>
  (parseNatTok r1).bind fun p1 =>
  (expectLit (asciiBytes ",\"used_memory\":") p1.2).bind fun r2 =>
  (parseNatTok r2).bind fun p2 =>
  (expectLit (asciiBytes ",\"cpus\":") p2.2).bind fun r3 =>
  (parseNatTok r3).bind fun p3 =>
  (expectLit (asciiBytes ",\"cpu_usage\":") p3.2).bind fun r4 =>
  (parseF32Tok r4).bind fun q1 =>
  (expectLit (asciiBytes ",\"avg_cpu_usage\":") q1.2).bind fun r5 =>
  (parseF32Tok r5).bind fun q2 =>
  (expectLit (asciiBytes "\x7d") q2.2).bind fun r6 =>
  some (⟨p1.1, p2.1, p3.1, q1.1, q2.1⟩, r6)

/-- Model of `serde_json::from_slice::<CollectorCommand>` on canonical
documents; `from_slice` consumes the whole input, so trailing bytes are
an error. -/
def parseCommand (bs : List Nat) : Option CollectorCommand :=
  (expectLit (asciiBytes "\x7b\"SubmitData\":\x7b\"collector_id\":") bs).bind fun r1 =>
  (parseNatTok r1).bind fun p1 =>
  (expectLit (asciiBytes ",\"metrics\":") p1.2).bind fun r2 =>
  (parseMetricsObj r2).bind fun q =>
  (expectLit (asciiBytes "\x7d\x7d") q.2).bind fun r3 =>
  if r3 = [] then some (.SubmitData p1.1 q.1) else none

/-! ### Round trip of the JSON payload -/

theorem expectLit_append (lit rest : List Nat) :
    expectLit lit (lit ++ rest) = some rest := by
  induction lit with
  | nil => rfl
  | cons l ls ih => simp [expectLit, ih]

theorem expectLit_self (lit : List Nat) : expectLit lit lit = some [] := by
  have h := expectLit_append lit []
  rwa [List.append_nil] at h

theorem natDigitsAux_digits (fuel : Nat) : ∀ n, ∀ b ∈ natDigitsAux fuel n,
    isDigitByte b = true := by
  induction fuel with
  | zero => intro n b hb; simp [natDigitsAux] at hb
  | succ fuel ih =>
    intro n b hb
    by_cases h : n = 0
    · simp [natDigitsAux, h] at hb
    · simp only [natDigitsAux, if_neg h, List.mem_append, List.mem_singleton] at hb
      rcases hb with hb | rfl
      · exact ih _ b hb
      · have := Nat.mod_lt n (y := 10) (by omega)
        simp only [isDigitByte, Bool.and_eq_true, decide_eq_true_eq]
        omega

theorem natDigitsAux_foldl (fuel : Nat) : ∀ n a, n ≤ fuel →
    (natDigitsAux fuel n).foldl (fun a b => a * 10 + (b - 48)) a
      = a * 10 ^ (natDigitsAux fuel n).length + n := by
  induction fuel with
  | zero =>
    intro n a h
    have : n = 0 := by omega
    simp [natDigitsAux, this]
  | succ fuel ih =>
    intro n a h
    by_cases h0 : n = 0
    · simp [natDigitsAux, h0]
    · have hle : n / 10 ≤ fuel := by
        have : n / 10 < n := Nat.div_lt_self (by omega) (by omega)
        omega
      simp only [natDigitsAux, if_neg h0, List.foldl_append, List.foldl_cons, List.foldl_nil,
        List.length_append, List.length_cons, List.length_nil, ih _ _ hle]
      have hm : 48 + n % 10 - 48 = n % 10 := by omega
      rw [hm]
      have hx : (a * 10 ^ (natDigitsAux fuel (n / 10)).length + n / 10) * 10 + n % 10
          = a * (10 ^ (natDigitsAux fuel (n / 10)).length * 10) + (10 * (n / 10) + n % 10) := by
        ring
      rw [hx, Nat.div_add_mod]
      simp only [Nat.zero_add, pow_succ]

theorem natBytes_digits (n : Nat) : ∀ b ∈ natBytes n, isDigitByte b = true := by
  unfold natBytes
  split
  · intro b hb
    simp only [List.mem_singleton] at hb
    subst hb
    rfl
  · exact natDigitsAux_digits n n

theorem natBytes_ne_nil (n : Nat) : natBytes n ≠ [] := by
  unfold natBytes
  split
  · simp
  · rename_i h
    match n, h with
    | n + 1, _ => simp [natDigitsAux]

theorem natBytes_foldl (n : Nat) :
    (natBytes n).foldl (fun a b => a * 10 + (b - 48)) 0 = n := by
  unfold natBytes
  split
  · rename_i h; subst h; rfl
  · have := natDigitsAux_foldl n n 0 le_rfl
    simpa using this

theorem takeDigits_append (ds rest : List Nat)
    (hd : ∀ b ∈ ds, isDigitByte b = true)
    (hr : ∀ r ∈ rest.head?, isDigitByte r = false) :
    takeDigits (ds ++ rest) = (ds, rest) := by
  induction ds with
  | nil =>
    simp only [List.nil_append]
    cases rest with
    | nil => rfl
    | cons r rs =>
      have hcr := hr r rfl
      simp [takeDigits, hcr]
  | cons d ds ih =>
    have hdd := hd d (List.mem_cons_self d ds)
    have hrec := ih (fun b hb => hd b (List.mem_cons_of_mem d hb))
    simp [takeDigits, hdd, hrec]

theorem parseNatTok_round44 (n : Nat) (rest : List Nat)
    (hh : rest.head? = some 44) :
    parseNatTok (natBytes n ++ rest) = some (n, rest) := by
  have hr : ∀ r ∈ rest.head?, isDigitByte r = false := by
    intro r hrm
    rw [hh, Option.mem_some_iff] at hrm
    subst hrm
    rfl
  have ht := takeDigits_append (natBytes n) rest (natBytes_digits n) hr
  unfold parseNatTok
  rw [ht]
  cases hnb : natBytes n with
  | nil => exact absurd hnb (natBytes_ne_nil n)
  | cons d ds =>
    simp only []
    rw [← hnb, natBytes_foldl]

theorem takeNumTok_append (tok : List Nat) (b : Nat) (rest0 : List Nat)
    (hw : ∀ x ∈ tok, x ≠ 44 ∧ x ≠ 125) (hb : b = 44 ∨ b = 125) :
    takeNumTok (tok ++ b :: rest0) = (tok, b :: rest0) := by
  induction tok with
  | nil => simp [takeNumTok, hb]
  | cons t ts ih =>
    have h1 := hw t (List.mem_cons_self t ts)
    have hnot : ¬(t = 44 ∨ t = 125) := by tauto
    have hrec := ih (fun x hx => hw x (List.mem_cons_of_mem t hx))
    simp [takeNumTok, hnot, hrec]

theorem parseF32Tok_round (f : F32) (rest : List Nat)
    (hh : rest.head? = some 44 ∨ rest.head? = some 125) :
    parseF32Tok (f.val ++ rest) = some (f, rest) := by
  obtain ⟨bs, hne, hwf⟩ := f
  cases rest with
  | nil => simp at hh
  | cons b rest0 =>
    have hb : b = 44 ∨ b = 125 := by
      rcases hh with hh | hh <;> simp only [List.head?] at hh <;>
        [exact Or.inl (Option.some.inj hh); exact Or.inr (Option.some.inj hh)]
    cases bs with
    | nil => exact absurd rfl hne
    | cons t ts =>
      have hta := takeNumTok_append (t :: ts) b rest0 hwf hb
      unfold parseF32Tok
      split
      · rename_i heq
        rw [hta] at heq
        cases heq
      · rename_i x xs r' heq
        rw [hta] at heq
        injection heq with h1 h2
        subst h2
        cases h1
        rfl

theorem parseMetricsObj_metricsJson (m : Metrics) (rest : List Nat) :
    parseMetricsObj (metricsJson m ++ rest) = some (m, rest) := by
  obtain ⟨tm, um, cp, cu, au⟩ := m
  simp only [metricsJson, List.append_assoc]
  unfold parseMetricsObj
  rw [expectLit_append]
  simp only [Option.some_bind']
  rw [parseNatTok_round44]
  case hh => rfl
  simp only [Option.some_bind']
  rw [expectLit_append]
  simp only [Option.some_bind']
  rw [parseNatTok_round44]
  case hh => rfl
  simp only [Option.some_bind']
  rw [expectLit_append]
  simp only [Option.some_bind']
  rw [parseNatTok_round44]
  case hh => rfl
  simp only [Option.some_bind']
  rw [expectLit_append]
  simp only [Option.some_bind']
  rw [parseF32Tok_round]
  case hh => exact Or.inl rfl
  simp only [Option.some_bind']
  rw [expectLit_append]
  simp only [Option.some_bind']
  rw [parseF32Tok_round]
  case hh => exact Or.inr rfl
  simp only [Option.some_bind']
  rw [expectLit_append]
  simp only [Option.some_bind']

theorem parseCommand_commandJson (c : CollectorCommand) :
    parseCommand (commandJson c) = some c := by
  obtain ⟨cid, m⟩ := c
  simp only [commandJson, List.append_assoc]
  unfold parseCommand
  rw [expectLit_append]
  simp only [Option.some_bind']
  rw [parseNatTok_round44]
  case hh => rfl
  simp only [Option.some_bind']
  rw [expectLit_append]
  simp only [Option.some_bind']
  rw [parseMetricsObj_metricsJson]
  simp only [Option.some_bind']
  rw [expectLit_self]
  simp only [Option.some_bind']
  rfl


/-! ## Unix wall-clock helpers (`util/src/datetime/unix.rs`) -/

/-- `util::datetime::unix::now()`: the `SystemTime::now()` offset from
the Unix epoch truncated to whole seconds (`Duration::as_secs`). The
ambient wall clock is passed explicitly, as nanoseconds since the Unix
epoch (a `Duration`'s full precision). -/
def unixNow (clockNanos : Nat) : Nat :=
  clockNanos / 1000000000

/-- `util::datetime::unix::now_micros()`: the same instant in
microseconds (`Duration::as_micros`). -/
def unixNowMicros (clockNanos : Nat) : Nat :=
  clockNanos / 1000

/-! ## The wire envelope (`shared_data::encode` and `shared_data::decode`) -/

/-- `VERSION_NUMBER` in `shared_data/src/lib.rs`. -/
def VERSION_NUMBER : Nat := 1

/-- `shared_data::encode`, with the wall clock at the instant of
encoding passed as `clockNanos`. The writes, in order and big-endian:
the `u128` collector id, the `u16` version, the `u64` timestamp
(`util::datetime::unix::now()`, whole seconds), the `u32` payload
length (`bytes.len() as u32`, a truncating cast), the JSON payload
bytes, and the `u32` CRC-32 of the payload bytes. -/
def encode (collector_id : Nat) (command : CollectorCommand) (clockNanos : Nat) : List Nat :=
  toBytesBE 16 collector_id
    ++ toBytesBE 2 VERSION_NUMBER
    ++ toBytesBE 8 (unixNow clockNanos)
    ++ toBytesBE 4 ((commandJson command).length % 2 ^ 32)
    ++ commandJson command
    ++ toBytesBE 4 (crc32Hash (commandJson command))

/-- The errors `shared_data::decode` can return. -/
inductive DecodeError where
  | eof                 -- a cursor read failed: io `UnexpectedEof` through `?`
  | invalidCollectorId  -- RmxError::Invalid "Invalid collector id."
  | invalidVersion      -- RmxError::Invalid "Invalid version number."
  | badCrc              -- RmxError::Invalid "Bad CRC checksum." (dead code, see `decode`)
deriving DecidableEq

/-- An outcome of `shared_data::decode`: an `Ok` pair, an `Err`, or a
panic of the calling thread. -/
inductive DecodeResult where
  | ok (timestamp : Nat) (command : CollectorCommand)
  | err (e : DecodeError)
  | panicked (msg : String)
deriving DecidableEq

/-- `shared_data::decode`. All cursor reads happen first (each `?` can
fail with an io `UnexpectedEof`), then the collector id, version and
CRC checks run in order. The CRC check is
`assert_eq!(crc, computed_crc)` directly followed by an
`if crc != computed_crc` that returns the bad-checksum error: the
assert panics on a mismatch first, so that error return is unreachable
dead code, which this definition mirrors with a second (dead) test of
the same condition. A payload that does not parse back into a command
makes `serde_json::from_slice(&payload).unwrap()` panic. -/
def decode (collector_id : Nat) (bytes : List Nat) : DecodeResult :=
  match readN 16 bytes with
  | none => .err .eof
  | some (magicBytes, r1) =>
    match readN 2 r1 with
    | none => .err .eof
    | some (versionBytes, r2) =>
      match readN 8 r2 with
      | none => .err .eof
      | some (timestampBytes, r3) =>
        match readN 4 r3 with
        | none => .err .eof
        | some (sizeBytes, r4) =>
          match readN (fromBytesBE sizeBytes) r4 with
          | none => .err .eof
          | some (payload, r5) =>
            match readN 4 r5 with
            | none => .err .eof
            | some (crcBytes, _) =>
              if fromBytesBE magicBytes ≠ collector_id then .err .invalidCollectorId
              else if fromBytesBE versionBytes ≠ VERSION_NUMBER then .err .invalidVersion
              else if fromBytesBE crcBytes ≠ crc32Hash payload then
                .panicked "assertion failed: crc == computed_crc"
              else if fromBytesBE crcBytes ≠ crc32Hash payload then
                .err .badCrc
              else
                match parseCommand payload with
                | some command => .ok (fromBytesBE timestampBytes) command
                | none => .panicked "called Option::unwrap on a None value"

theorem readN_exact (k : Nat) (bs rest : List Nat) (h : bs.length = k) :
    readN k (bs ++ rest) = some (bs, rest) := by
  subst h
  exact readN_append bs rest

theorem readN_all (k : Nat) (bs : List Nat) (h : bs.length = k) :
    readN k bs = some (bs, []) := by
  subst h
  simp [readN, List.take_length, List.drop_length]

/-- Central envelope round trip: decoding an encoded frame (same
collector id on both sides) succeeds and returns the encoder's
`unix::now()` timestamp and the original command. -/
theorem decode_encode (id : Nat) (c : CollectorCommand) (clock : Nat)
    (hid : id < 2 ^ 128) (hlen : (commandJson c).length < 2 ^ 32) :
    decode id (encode id c clock) = .ok (unixNow clock % 2 ^ 64) c := by
  have hsize : (commandJson c).length % 2 ^ 32 = (commandJson c).length :=
    Nat.mod_eq_of_lt hlen
  have hidm : id % 2 ^ (8 * 16) = id := by
    rw [show (8 * 16 : Nat) = 128 from rfl]
    exact Nat.mod_eq_of_lt hid
  have hcrcm : crc32Hash (commandJson c) % 2 ^ (8 * 4) = crc32Hash (commandJson c) := by
    rw [show (8 * 4 : Nat) = 32 from rfl]
    exact Nat.mod_eq_of_lt (crc32Hash_lt (commandJson c))
  unfold encode decode
  simp only [List.append_assoc, hsize,
    readN_exact _ _ _ (length_toBytesBE 16 id),
    readN_exact _ _ _ (length_toBytesBE 2 VERSION_NUMBER),
    readN_exact _ _ _ (length_toBytesBE 8 (unixNow clock)),
    readN_exact _ _ _ (length_toBytesBE 4 (commandJson c).length),
    readN_append,
    readN_all _ _ (length_toBytesBE 4 (crc32Hash (commandJson c))),
    fromBytesBE_toBytesBE, hidm, hcrcm, ne_eq, not_true_eq_false, if_false,
    parseCommand_commandJson]
  norm_num [VERSION_NUMBER]


/-! ### Frame layout -/

theorem take_len_append (l1 l2 : List Nat) (k : Nat) (h : l1.length = k) :
    (l1 ++ l2).take k = l1 := by
  subst h
  exact List.take_left l1 l2

theorem drop_len_append (l1 l2 : List Nat) (k : Nat) (h : l1.length = k) :
    (l1 ++ l2).drop k = l2 := by
  subst h
  exact List.drop_left l1 l2

theorem encode_length (id : Nat) (c : CollectorCommand) (t : Nat) :
    (encode id c t).length = 34 + (commandJson c).length := by
  simp [encode, length_toBytesBE]
  omega

theorem encode_collectorIdField (id : Nat) (c : CollectorCommand) (t : Nat) :
    (encode id c t).take 16 = toBytesBE 16 id := by
  unfold encode
  simp only [List.append_assoc]
  exact take_len_append _ _ _ (length_toBytesBE 16 id)

theorem encode_versionField (id : Nat) (c : CollectorCommand) (t : Nat) :
    ((encode id c t).drop 16).take 2 = toBytesBE 2 VERSION_NUMBER := by
  unfold encode
  simp only [List.append_assoc]
  rw [drop_len_append _ _ _ (length_toBytesBE 16 id)]
  exact take_len_append _ _ _ (length_toBytesBE 2 VERSION_NUMBER)

theorem encode_timestampField (id : Nat) (c : CollectorCommand) (t : Nat) :
    ((encode id c t).drop 18).take 8 = toBytesBE 8 (unixNow t) := by
  unfold encode
  rw [show toBytesBE 16 id ++ toBytesBE 2 VERSION_NUMBER ++ toBytesBE 8 (unixNow t)
        ++ toBytesBE 4 ((commandJson c).length % 2 ^ 32) ++ commandJson c
        ++ toBytesBE 4 (crc32Hash (commandJson c))
      = (toBytesBE 16 id ++ toBytesBE 2 VERSION_NUMBER)
        ++ (toBytesBE 8 (unixNow t) ++ (toBytesBE 4 ((commandJson c).length % 2 ^ 32)
            ++ (commandJson c ++ toBytesBE 4 (crc32Hash (commandJson c))))) from by
    simp [List.append_assoc]]
  rw [drop_len_append _ _ 18 (by simp [length_toBytesBE])]
  exact take_len_append _ _ _ (length_toBytesBE 8 (unixNow t))

theorem encode_payloadLenField (id : Nat) (c : CollectorCommand) (t : Nat) :
    ((encode id c t).drop 26).take 4 = toBytesBE 4 ((commandJson c).length % 2 ^ 32) := by
  unfold encode
  rw [show toBytesBE 16 id ++ toBytesBE 2 VERSION_NUMBER ++ toBytesBE 8 (unixNow t)
        ++ toBytesBE 4 ((commandJson c).length % 2 ^ 32) ++ commandJson c
        ++ toBytesBE 4 (crc32Hash (commandJson c))
      = (toBytesBE 16 id ++ toBytesBE 2 VERSION_NUMBER ++ toBytesBE 8 (unixNow t))
        ++ (toBytesBE 4 ((commandJson c).length % 2 ^ 32)
            ++ (commandJson c ++ toBytesBE 4 (crc32Hash (commandJson c)))) from by
    simp [List.append_assoc]]
  rw [drop_len_append _ _ 26 (by simp [length_toBytesBE])]
  exact take_len_append _ _ _ (length_toBytesBE 4 _)

theorem encode_payloadField (id : Nat) (c : CollectorCommand) (t : Nat) :
    ((encode id c t).drop 30).take (commandJson c).length = commandJson c := by
  unfold encode
  rw [show toBytesBE 16 id ++ toBytesBE 2 VERSION_NUMBER ++ toBytesBE 8 (unixNow t)
        ++ toBytesBE 4 ((commandJson c).length % 2 ^ 32) ++ commandJson c
        ++ toBytesBE 4 (crc32Hash (commandJson c))
      = (toBytesBE 16 id ++ toBytesBE 2 VERSION_NUMBER ++ toBytesBE 8 (unixNow t)
          ++ toBytesBE 4 ((commandJson c).length % 2 ^ 32))
        ++ (commandJson c ++ toBytesBE 4 (crc32Hash (commandJson c))) from by
    simp [List.append_assoc]]
  rw [drop_len_append _ _ 30 (by simp [length_toBytesBE])]
  exact take_len_append _ _ _ rfl

theorem encode_crcField (id : Nat) (c : CollectorCommand) (t : Nat) :
    (encode id c t).drop (30 + (commandJson c).length)
      = toBytesBE 4 (crc32Hash (commandJson c)) := by
  unfold encode
  rw [show toBytesBE 16 id ++ toBytesBE 2 VERSION_NUMBER ++ toBytesBE 8 (unixNow t)
        ++ toBytesBE 4 ((commandJson c).length % 2 ^ 32) ++ commandJson c
        ++ toBytesBE 4 (crc32Hash (commandJson c))
      = (toBytesBE 16 id ++ toBytesBE 2 VERSION_NUMBER ++ toBytesBE 8 (unixNow t)
          ++ toBytesBE 4 ((commandJson c).length % 2 ^ 32) ++ commandJson c)
        ++ toBytesBE 4 (crc32Hash (commandJson c)) from by
    simp [List.append_assoc]]
  exact drop_len_append _ _ _ (by simp [length_toBytesBE]; omega)

theorem readN_some (k : Nat) (bs : List Nat) (h : k ≤ bs.length) :
    readN k bs = some (bs.take k, bs.drop k) :=
  if_pos h

/-- Every buffer shorter than the 34 bytes of fixed framing fails to
decode with the io end-of-file error: the 30 header bytes, the declared
payload and the 4 CRC bytes cannot all be read. -/
theorem decode_short (id : Nat) (bs : List Nat) (h : bs.length < 34) :
    decode id bs = .err .eof := by
  unfold decode
  by_cases h16 : bs.length < 16
  · simp only [(readN_eq_none_iff 16 bs).mpr h16]
  · by_cases h18 : bs.length < 18
    · simp only [readN_some 16 bs (by omega),
        (readN_eq_none_iff 2 (bs.drop 16)).mpr (by simp; omega)]
    · by_cases h26 : bs.length < 26
      · simp only [readN_some 16 bs (by omega),
          readN_some 2 (bs.drop 16) (by simp; omega),
          (readN_eq_none_iff 8 ((bs.drop 16).drop 2)).mpr (by simp; omega)]
      · by_cases h30 : bs.length < 30
        · simp only [readN_some 16 bs (by omega),
            readN_some 2 (bs.drop 16) (by simp; omega),
            readN_some 8 ((bs.drop 16).drop 2) (by simp; omega),
            (readN_eq_none_iff 4 (((bs.drop 16).drop 2).drop 8)).mpr (by simp; omega)]
        · by_cases hp : ((((bs.drop 16).drop 2).drop 8).drop 4).length
              < fromBytesBE ((((bs.drop 16).drop 2).drop 8).take 4)
          · simp only [readN_some 16 bs (by omega),
              readN_some 2 (bs.drop 16) (by simp; omega),
              readN_some 8 ((bs.drop 16).drop 2) (by simp; omega),
              readN_some 4 (((bs.drop 16).drop 2).drop 8) (by simp; omega),
              (readN_eq_none_iff _ _).mpr hp]
          · simp only [readN_some 16 bs (by omega),
              readN_some 2 (bs.drop 16) (by simp; omega),
              readN_some 8 ((bs.drop 16).drop 2) (by simp; omega),
              readN_some 4 (((bs.drop 16).drop 2).drop 8) (by simp; omega),
              readN_some (fromBytesBE ((((bs.drop 16).drop 2).drop 8).take 4))
                ((((bs.drop 16).drop 2).drop 8).drop 4) (by omega),
              (readN_eq_none_iff 4 (((((bs.drop 16).drop 2).drop 8).drop 4).drop
                (fromBytesBE ((((bs.drop 16).drop 2).drop 8).take 4)))).mpr
                (by simp; omega)]


/-- A frame whose fixed header is well formed (matching collector id,
version 1) but whose trailing CRC field differs from the CRC-32 of the
payload makes `decode` panic at `assert_eq!(crc, computed_crc)`; the
`badCrc` error return sits behind the assert and is never reached. -/
theorem decode_crc_mismatch (id ts crc : Nat) (payload : List Nat)
    (hid : id < 2 ^ 128) (hlen : payload.length < 2 ^ 32)
    (hcrc : crc % 2 ^ 32 ≠ crc32Hash payload) :
    decode id (toBytesBE 16 id ++ toBytesBE 2 VERSION_NUMBER ++ toBytesBE 8 ts
        ++ toBytesBE 4 payload.length ++ payload ++ toBytesBE 4 crc)
      = .panicked "assertion failed: crc == computed_crc" := by
  have hidm : id % 2 ^ (8 * 16) = id := by
    rw [show (8 * 16 : Nat) = 128 from rfl]
    exact Nat.mod_eq_of_lt hid
  have h32 : payload.length % 2 ^ (8 * 4) = payload.length := by
    rw [show (8 * 4 : Nat) = 32 from rfl]
    exact Nat.mod_eq_of_lt hlen
  have hcrc' : crc % 2 ^ (8 * 4) ≠ crc32Hash payload := by
    rw [show (8 * 4 : Nat) = 32 from rfl]
    exact hcrc
  unfold decode
  simp only [List.append_assoc,
    readN_exact _ _ _ (length_toBytesBE 16 id),
    readN_exact _ _ _ (length_toBytesBE 2 VERSION_NUMBER),
    readN_exact _ _ _ (length_toBytesBE 8 ts),
    readN_exact _ _ _ (length_toBytesBE 4 payload.length),
    fromBytesBE_toBytesBE, hidm, h32, readN_append,
    readN_all _ _ (length_toBytesBE 4 crc)]
  have h2 : (2 : Nat) ^ 32 = 4294967296 := by norm_num
  rw [show (8 * 4 : Nat) = 32 from rfl, h2] at hcrc'
  simp [hcrc', VERSION_NUMBER]

/-- On a buffer long enough for all six reads, a collector-id mismatch
in the first 16 bytes is the first check to fail, whatever the version
and CRC fields hold. -/
theorem decode_wrong_id (id : Nat) (bs : List Nat)
    (hsz : fromBytesBE ((bs.drop 26).take 4) + 34 ≤ bs.length)
    (hneq : fromBytesBE (bs.take 16) ≠ id) :
    decode id bs = .err .invalidCollectorId := by
  unfold decode
  simp only [List.drop_drop,
    readN_some 16 bs (by omega),
    readN_some 2 (bs.drop 16) (by simp; omega),
    readN_some 8 (bs.drop 18) (by simp; omega),
    readN_some 4 (bs.drop 26) (by simp; omega),
    readN_some (fromBytesBE ((bs.drop 26).take 4)) (bs.drop 30) (by simp; omega),
    readN_some 4 (bs.drop (30 + fromBytesBE ((bs.drop 26).take 4))) (by simp; omega)]
  simp [hneq]


/-! ## The collector lifecycle (`session05/collector/src/collector.rs`) -/

/-- The shared state of a `Collector` plus its sampler threads:
`running` and `stop_requested` model the two `Arc<AtomicBool>` fields;
`threads` counts sampler threads whose `while !stop_requested` loop has
not yet exited. -/
structure CollectorState where
  running : Bool
  stop_requested : Bool
  threads : Nat
deriving DecidableEq

/-- `Collector::new`: both flags false, no sampler thread. -/
def collectorNew : CollectorState :=
  { running := false, stop_requested := false, threads := 0 }

inductive StartResult where
  | ok              -- `Ok(handle)`: a sampler thread was spawned
  | alreadyRunning  -- `Err(InvalidOperation("Collector is already running."))`
deriving DecidableEq

/-- `Collector::start`: the `compare_exchange(false, true)` guard on
`running`; on success `stop_requested` is reset and a sampler thread is
spawned. -/
def collectorStart (s : CollectorState) : CollectorState × StartResult :=
  if s.running then (s, .alreadyRunning)
  else ({ running := true, stop_requested := false, threads := s.threads + 1 }, .ok)

/-- One iteration of a live sampler thread's `while !stop_requested`
loop: when `stop_requested` is set at the loop head the loop exits;
otherwise the thread sleeps to its deadline, runs the tick body inside
`catch_unwind`, and then executes `running.store(false)` — the store
sits inside the loop body (collector.rs, after the `catch_unwind`), so
it runs after every tick. -/
def collectorLoopIter (s : CollectorState) : CollectorState :=
  if s.threads = 0 then s
  else if s.stop_requested then { s with threads := s.threads - 1 }
  else { s with running := false }

/-- `Collector::stop`: the `compare_exchange(false, true)` on
`stop_requested` (a no-op when already set). -/
def collectorStop (s : CollectorState) : CollectorState :=
  { s with stop_requested := true }

/-! ## The sampler schedule (drift-free cadence, collector.rs) -/

/-- One observed loop iteration of the sampler scheduler: the absolute
deadline `next_tick` at the iteration head and the time slept. -/
structure TickRecord where
  deadline : Nat
  slept : Nat
deriving DecidableEq

/-- The sampler scheduling loop, driven by the instants `nows` observed
at the successive iteration heads: when `now < next_tick` the thread
sleeps `next_tick - now`, otherwise it does not sleep at all; in either
case `next_tick` then advances by exactly `period`. -/
def samplerSchedule (next_tick period : Nat) : List Nat → List TickRecord
  | [] => []
  | now :: nows =>
      { deadline := next_tick,
        slept := if now < next_tick then next_tick - now else 0 }
        :: samplerSchedule (next_tick + period) period nows

/-- The schedule from thread start: `next_tick` is initialized to
`Instant::now() + period` (`t0` is the instant the thread starts). -/
def samplerRun (t0 period : Nat) (nows : List Nat) : List TickRecord :=
  samplerSchedule (t0 + period) period nows

theorem samplerSchedule_length (period : Nat) :
    ∀ (nows : List Nat) (nt : Nat), (samplerSchedule nt period nows).length = nows.length := by
  intro nows
  induction nows with
  | nil => intro nt; rfl
  | cons now nows ih => intro nt; simp [samplerSchedule, ih]

theorem samplerSchedule_getD (period : Nat) :
    ∀ (nows : List Nat) (nt i : Nat), i < nows.length →
      (samplerSchedule nt period nows).getD i ⟨0, 0⟩
        = { deadline := nt + i * period,
            slept := if nows.getD i 0 < nt + i * period then nt + i * period - nows.getD i 0
                     else 0 } := by
  intro nows
  induction nows with
  | nil => intro nt i h; simp at h
  | cons now nows ih =>
    intro nt i h
    cases i with
    | zero => simp [samplerSchedule]
    | succ i =>
      have hi : i < nows.length := by simpa using h
      have := ih (nt + period) i hi
      simp only [samplerSchedule, List.getD_cons_succ, this]
      have harith : nt + period + i * period = nt + (i + 1) * period := by ring
      rw [harith]

/-! ## The sender loop (`session05/collector/src/main.rs`) -/

/-- `TRIES` in collector/src/main.rs: the number of successful sends
after which the sender publishes `Exit` and stops. -/
def TRIES : Nat := 100

/-- `ERRORS` in collector/src/main.rs: the consecutive-failure budget. -/
def ERRORS : Nat := 3

inductive SendOutcome where
  | success  -- `collector.publish(&command)` returned Ok
  | failure  -- it returned Err (connect or write failure)
deriving DecidableEq

inductive SenderResult where
  | running (messages errors : Nat)  -- the loop is still live with these counters
  | exitSent                         -- published the final `Exit` and broke cleanly
  | aborted                          -- "Maximum errors sending to server exceeded."
deriving DecidableEq

/-- The sender main loop, driven by the outcomes of the successive
`publish` calls (the run ends when the outcome list does). On a
success: `messages -= 1`, `errors = ERRORS`, and at zero remaining
messages an `Exit` command is published and the loop breaks. On a
failure: `errors -= 1`, and at zero remaining errors the loop aborts. -/
def senderRun (messages errors : Nat) : List SendOutcome → SenderResult
  | [] => .running messages errors
  | .success :: rest =>
      if messages - 1 = 0 then .exitSent
      else senderRun (messages - 1) ERRORS rest
  | .failure :: rest =>
      if errors - 1 = 0 then .aborted
      else senderRun messages (errors - 1) rest

/-- Runs compose: the tail of the outcome list continues from the
counters the prefix ended with. -/
theorem senderRun_append (pre post : List SendOutcome) :
    ∀ m e, senderRun m e (pre ++ post)
      = match senderRun m e pre with
        | .running m' e' => senderRun m' e' post
        | r => r := by
  induction pre with
  | nil => intro m e; rfl
  | cons o pre ih =>
    intro m e
    cases o with
    | success =>
      by_cases h : m - 1 = 0 <;> simp [senderRun, h, ih]
    | failure =>
      by_cases h : e - 1 = 0 <;> simp [senderRun, h, ih]

theorem senderRun_successes (k : Nat) : ∀ m e, k < m →
    senderRun m e (List.replicate k .success)
      = .running (m - k) (if k = 0 then e else ERRORS) := by
  induction k with
  | zero => intro m e h; simp [senderRun, List.replicate]
  | succ k ih =>
    intro m e h
    have h1 : ¬(m - 1 = 0) := by omega
    have h2 : k < m - 1 := by omega
    simp only [List.replicate, senderRun, if_neg h1, ih (m - 1) ERRORS h2]
    have : m - 1 - k = m - (k + 1) := by omega
    rw [this]
    by_cases hk : k = 0 <;> simp [hk]

theorem senderRun_all_successes (m : Nat) : ∀ e, 1 ≤ m →
    senderRun m e (List.replicate m .success) = .exitSent := by
  induction m with
  | zero => intro e h; omega
  | succ m ih =>
    intro e h
    by_cases hm : m = 0
    · subst hm; simp [senderRun, List.replicate]
    · have h1 : ¬(m + 1 - 1 = 0) := by omega
      have hms : m + 1 - 1 = m := by omega
      rw [List.replicate_succ]
      simp only [senderRun, if_neg h1, hms]
      rw [if_neg hm]
      exact ih ERRORS (by omega)

/-! ## The receiver's per-connection read loop (`server/src/receiver.rs`) -/

/-- The `std::io::ErrorKind` classes a TCP read can report; the spec
names `interrupted` (EINTR) and `wouldBlock` (EWOULDBLOCK) as the
transient ones. -/
inductive ReadErrorKind where
  | interrupted
  | wouldBlock
  | connectionReset
  | other
deriving DecidableEq

/-- Whether the spec classes this error as transient. -/
def ReadErrorKind.transient : ReadErrorKind → Bool
  | .interrupted => true
  | .wouldBlock => true
  | _ => false

/-- The result of `socket.read(&mut buffer).await`. -/
inductive ReadOutcome where
  | ok (n : Nat)
  | err (k : ReadErrorKind)
deriving DecidableEq

/-- What one iteration head of `Receiver::new_connection`'s loop does
with the read result. -/
inductive ConnStep where
  | continueLoop     -- log the error and `continue`
  | endTask          -- `return`: the connection task ends
  | decodeChunk (n : Nat)  -- fall through and decode the n received bytes
deriving DecidableEq

/-- The match on `socket.read` in `Receiver::new_connection`: every
`Err(ex)` prints the error and `continue`s, `Ok(0)` returns, and
`Ok(n)` with `n > 0` proceeds to decode the chunk. -/
def connReadStep : ReadOutcome → ConnStep
  | .err _ => .continueLoop
  | .ok 0 => .endTask
  | .ok (n + 1) => .decodeChunk (n + 1)

/-! ## The `Signal` primitive (`util/src/threading.rs`) -/

/-- A use of `Signal`, abstracted over when the signal is set relative
to the start of the wait: `setAt = some t` means `set` happens `t` time
units after the wait begins, `none` means it never happens. A `none`
result models a call that never returns. `Signal::wait` blocks with no
deadline until the signal is set. -/
def signalWait (setAt : Option Nat) : Option Unit :=
  setAt.map fun _ => ()

/-- `Signal::wait_timeout`: a zero timeout delegates to `wait` and then
returns `true`; a nonzero timeout runs the condvar loop with deadline
`timeout`, returning `true` when the signal is set before the deadline
and `false` when the deadline passes first (`timeout.checked_sub
(elapsed)` returning `None`). -/
def signalWaitTimeout (timeout : Nat) (setAt : Option Nat) : Option Bool :=
  if timeout = 0 then (signalWait setAt).map fun _ => true
  else
    match setAt with
    | none => some false
    | some t => if t < timeout then some true else some false


/-! ## Payload length bounds -/

theorem natDigitsAux_length_le :
    ∀ fuel n k : Nat, n ≤ fuel → n < 10 ^ k → (natDigitsAux fuel n).length ≤ k := by
  intro fuel
  induction fuel with
  | zero =>
    intro n k h hk
    have : n = 0 := by omega
    simp [natDigitsAux, this]
  | succ fuel ih =>
    intro n k h hk
    by_cases h0 : n = 0
    · simp [natDigitsAux, h0]
    · cases k with
      | zero => simp at hk; omega
      | succ k =>
        have hdiv : n / 10 ≤ fuel := by
          have : n / 10 < n := Nat.div_lt_self (by omega) (by omega)
          omega
        have hdk : n / 10 < 10 ^ k := by
          rw [Nat.div_lt_iff_lt_mul (by omega)]
          calc n < 10 ^ (k + 1) := hk
            _ = 10 ^ k * 10 := by rw [pow_succ]
        have := ih (n / 10) k hdiv hdk
        simp only [natDigitsAux, if_neg h0, List.length_append, List.length_cons,
          List.length_nil]
        omega

theorem natBytes_length_le (n k : Nat) (hk : 1 ≤ k) (h : n < 10 ^ k) :
    (natBytes n).length ≤ k := by
  unfold natBytes
  split
  · simpa using hk
  · exact natDigitsAux_length_le n n k le_rfl h

theorem commandJson_length (cid : Nat) (m : Metrics) :
    (commandJson (.SubmitData cid m)).length
      = 113 + (natBytes cid).length + (natBytes m.total_memory).length
        + (natBytes m.used_memory).length + (natBytes m.cpus).length
        + m.cpu_usage.val.length + m.avg_cpu_usage.val.length := by
  have hA : (asciiBytes "\x7b\"SubmitData\":\x7b\"collector_id\":").length = 30 := by decide
  have hB : (asciiBytes ",\"metrics\":").length = 11 := by decide
  have hC : (asciiBytes "\x7b\"total_memory\":").length = 16 := by decide
  have hD : (asciiBytes ",\"used_memory\":").length = 15 := by decide
  have hE : (asciiBytes ",\"cpus\":").length = 8 := by decide
  have hF : (asciiBytes ",\"cpu_usage\":").length = 13 := by decide
  have hG : (asciiBytes ",\"avg_cpu_usage\":").length = 17 := by decide
  have hH : (asciiBytes "\x7d").length = 1 := by decide
  have hI : (asciiBytes "\x7d\x7d").length = 2 := by decide
  simp only [commandJson, metricsJson, List.length_append, hA, hB, hC, hD, hE, hF, hG, hH, hI]
  omega

/-- The JSON payload of a command whose fields fit their Rust machine
types (`u128`, `u64`, `usize`, and `f32` values with renderings of at
most 64 bytes — `serde_json` float output never exceeds 16) is far
shorter than the `u32` range of the `payload_len` field. -/
theorem commandJson_length_lt (cid : Nat) (m : Metrics)
    (hcid : cid < 2 ^ 128)
    (htm : m.total_memory < 2 ^ 64) (hum : m.used_memory < 2 ^ 64)
    (hcp : m.cpus < 2 ^ 64)
    (hcu : m.cpu_usage.val.length ≤ 64) (hau : m.avg_cpu_usage.val.length ≤ 64) :
    (commandJson (.SubmitData cid m)).length < 2 ^ 32 := by
  have h128 : (2 : Nat) ^ 128 < 10 ^ 39 := by norm_num
  have h64 : (2 : Nat) ^ 64 < 10 ^ 20 := by norm_num
  have h1 : (natBytes cid).length ≤ 39 :=
    natBytes_length_le _ _ (by norm_num) (lt_trans hcid h128)
  have h2 : (natBytes m.total_memory).length ≤ 20 :=
    natBytes_length_le _ _ (by norm_num) (lt_trans htm h64)
  have h3 : (natBytes m.used_memory).length ≤ 20 :=
    natBytes_length_le _ _ (by norm_num) (lt_trans hum h64)
  have h4 : (natBytes m.cpus).length ≤ 20 :=
    natBytes_length_le _ _ (by norm_num) (lt_trans hcp h64)
  rw [commandJson_length]
  have : (2 : Nat) ^ 32 = 4294967296 := by norm_num
  omega

/-! ## Concrete sample values -/

/-- The rendering of the `f32` value `0` as serde_json prints an
integral zero float in this payload. -/
def f32zero : F32 := ⟨[48], by decide⟩

/-- A concrete all-zero `Metrics` value. -/
def metricsZero : Metrics :=
  { total_memory := 0, used_memory := 0, cpus := 0,
    cpu_usage := f32zero, avg_cpu_usage := f32zero }

/-- A concrete command used as a test input. -/
def cmdZero : CollectorCommand := .SubmitData 0 metricsZero

/-! ## The claims -/

/-- C1: for every `Command c` (its fields in their Rust machine ranges:
the ids `u128`, the memory counters and cpu count `u64`/`usize`, the
`f32` renderings at most 64 bytes) and a fixed collector id used for
both calls, decoding the bytes produced by encoding `c` succeeds and
yields a pair `(ts, c')` whose command component `c'` equals `c`. -/
theorem C1_codec_roundtrip (id clock cid : Nat) (m : Metrics)
    (hid : id < 2 ^ 128) (hcid : cid < 2 ^ 128)
    (htm : m.total_memory < 2 ^ 64) (hum : m.used_memory < 2 ^ 64)
    (hcp : m.cpus < 2 ^ 64)
    (hcu : m.cpu_usage.val.length ≤ 64) (hau : m.avg_cpu_usage.val.length ≤ 64) :
    ∃ ts, decode id (encode id (.SubmitData cid m) clock) = .ok ts (.SubmitData cid m) :=
  ⟨unixNow clock % 2 ^ 64,
    decode_encode id (.SubmitData cid m) clock hid
      (commandJson_length_lt cid m hcid htm hum hcp hcu hau)⟩

/-- Witness for C1 at a concrete command and clock. -/
theorem C1_codec_roundtrip_witness :
    (0 : Nat) < 2 ^ 128 ∧ metricsZero.total_memory < 2 ^ 64
    ∧ metricsZero.cpu_usage.val.length ≤ 64
    ∧ ∃ ts, decode 0 (encode 0 (.SubmitData 0 metricsZero) 0) = .ok ts (.SubmitData 0 metricsZero) :=
  ⟨by decide, by decide, by decide,
    C1_codec_roundtrip 0 0 0 metricsZero (by decide) (by decide) (by decide) (by decide)
      (by decide) (by decide) (by decide)⟩

/-- C2 counterexample: at a concrete command the encoded frame is 34
bytes plus the payload, not the 26 the claim states, so the claimed
layout (16-byte timestamp at offset 0, version at 16, payload length at
18, payload at 22) is false of `encode`. -/
theorem C2_layout_counterexample :
    (encode 0 cmdZero 0).length ≠ 26 + (commandJson cmdZero).length := by
  rw [encode_length]
  omega

/-- C2 (amended): the frame layout of `encode` is: big-endian u128
collector id at offset 0, u16 version at 16, u64 timestamp at 18, u32
payload length at 26, the payload at 30, and a trailing 4-byte CRC-32
over the payload bytes only; the total length is 34 + payload_len, and
`decode` fails with the io end-of-file error on every buffer shorter
than 34 bytes. -/
theorem C2_layout (id : Nat) (c : CollectorCommand) (t : Nat) :
    (encode id c t).length = 34 + (commandJson c).length
    ∧ (encode id c t).take 16 = toBytesBE 16 id
    ∧ ((encode id c t).drop 16).take 2 = toBytesBE 2 VERSION_NUMBER
    ∧ ((encode id c t).drop 18).take 8 = toBytesBE 8 (unixNow t)
    ∧ ((encode id c t).drop 26).take 4 = toBytesBE 4 ((commandJson c).length % 2 ^ 32)
    ∧ ((encode id c t).drop 30).take (commandJson c).length = commandJson c
    ∧ (encode id c t).drop (30 + (commandJson c).length)
        = toBytesBE 4 (crc32Hash (commandJson c))
    ∧ ∀ (id' : Nat) (bs : List Nat), bs.length < 34 → decode id' bs = .err .eof :=
  ⟨encode_length id c t, encode_collectorIdField id c t, encode_versionField id c t,
    encode_timestampField id c t, encode_payloadLenField id c t, encode_payloadField id c t,
    encode_crcField id c t, fun id' bs h => decode_short id' bs h⟩

/-- Witness for C2 (amended) at a concrete frame and a concrete short
buffer. -/
theorem C2_layout_witness :
    (encode 0 cmdZero 0).length = 34 + (commandJson cmdZero).length
    ∧ (List.replicate 33 0).length < 34
    ∧ decode 1 (List.replicate 33 0) = .err .eof :=
  ⟨(C2_layout 0 cmdZero 0).1, by decide,
    (C2_layout 0 cmdZero 0).2.2.2.2.2.2.2 1 (List.replicate 33 0) (by decide)⟩

/-- C3 counterexample: encoding at wall clock 2 s after the epoch
(2 × 10⁹ ns) stores timestamp 2 — `unix::now()` whole seconds — while
the claimed microsecond count at that instant is 2 000 000. -/
theorem C3_timestamp_counterexample :
    decode 0 (encode 0 cmdZero (2 * 1000000000)) = .ok 2 cmdZero
    ∧ unixNowMicros (2 * 1000000000) = 2000000
    ∧ (2 : Nat) ≠ 2000000 := by
  refine ⟨?_, by norm_num [unixNowMicros], by norm_num⟩
  have h := decode_encode 0 cmdZero (2 * 1000000000) (by decide) (by decide)
  have hn : (2 : Nat) = unixNow (2 * 1000000000) % 2 ^ 64 := by norm_num [unixNow]
  rw [hn]
  exact h

/-- C3 (amended): the timestamp field `encode` writes at offset 18 is
the encoder's wall clock in whole seconds since the Unix epoch
(`util::datetime::unix::now()`), taken at the instant of encoding, and
`decode` returns that second count. -/
theorem C3_timestamp_seconds (id : Nat) (c : CollectorCommand) (clock : Nat)
    (hid : id < 2 ^ 128) (hlen : (commandJson c).length < 2 ^ 32) :
    ((encode id c clock).drop 18).take 8 = toBytesBE 8 (unixNow clock)
    ∧ decode id (encode id c clock) = .ok (unixNow clock % 2 ^ 64) c :=
  ⟨encode_timestampField id c clock, decode_encode id c clock hid hlen⟩

/-- Witness for C3 (amended) at a concrete command and clock. -/
theorem C3_timestamp_seconds_witness :
    (0 : Nat) < 2 ^ 128
    ∧ decode 0 (encode 0 cmdZero (5 * 1000000000)) = .ok (unixNow (5 * 1000000000) % 2 ^ 64) cmdZero :=
  ⟨by decide, (C3_timestamp_seconds 0 cmdZero (5 * 1000000000) (by decide) (by decide)).2⟩

/-- C4: a frame that parses as a well-formed header (matching id,
version 1) but whose trailing CRC field differs from the CRC-32 of the
payload does NOT make `decode` return the bad-checksum error — it
panics at `assert_eq!(crc, computed_crc)` first; the `badCrc` return
after the assert is dead code. -/
theorem C4_crc_mismatch_panics (id ts crc : Nat) (payload : List Nat)
    (hid : id < 2 ^ 128) (hlen : payload.length < 2 ^ 32)
    (hcrc : crc % 2 ^ 32 ≠ crc32Hash payload) :
    decode id (toBytesBE 16 id ++ toBytesBE 2 VERSION_NUMBER ++ toBytesBE 8 ts
        ++ toBytesBE 4 payload.length ++ payload ++ toBytesBE 4 crc)
      = .panicked "assertion failed: crc == computed_crc"
    ∧ decode id (toBytesBE 16 id ++ toBytesBE 2 VERSION_NUMBER ++ toBytesBE 8 ts
        ++ toBytesBE 4 payload.length ++ payload ++ toBytesBE 4 crc)
      ≠ .err .badCrc := by
  have h := decode_crc_mismatch id ts crc payload hid hlen hcrc
  refine ⟨h, ?_⟩
  rw [h]
  simp

/-- Witness for C4 at a concrete corrupted frame: payload `"0"` with a
stored CRC of 0, which differs from `crc32Hash [48]`. -/
theorem C4_crc_mismatch_panics_witness :
    (0 : Nat) % 2 ^ 32 ≠ crc32Hash [48]
    ∧ decode 0 (toBytesBE 16 0 ++ toBytesBE 2 VERSION_NUMBER ++ toBytesBE 8 0
        ++ toBytesBE 4 [48].length ++ [48] ++ toBytesBE 4 0)
      = .panicked "assertion failed: crc == computed_crc" :=
  ⟨by decide,
    (C4_crc_mismatch_panics 0 0 0 [48] (by decide) (by decide) (by decide)).1⟩


/-- C5: the spec says a second `Collector::start` while the sampler is
running fails with `AlreadyRunning` at every reachable state between
start and stop. The code violates this: the sampler loop stores
`running = false` after every tick (inside the `while` body), so after
the first completed tick — with `stop` never requested and the thread
still looping — a second `start` succeeds and spawns a second sampler
thread. -/
theorem C5_double_start_succeeds :
    (collectorStart collectorNew).2 = .ok
    ∧ (collectorLoopIter (collectorStart collectorNew).1).threads = 1
    ∧ (collectorLoopIter (collectorStart collectorNew).1).stop_requested = false
    ∧ (collectorStart (collectorLoopIter (collectorStart collectorNew).1)).2 = .ok
    ∧ (collectorStart (collectorLoopIter (collectorStart collectorNew).1)).1.threads = 2 := by
  decide

/-- C6: the sampler keeps an absolute deadline: with the thread started
at `t0`, the deadline of iteration `i` is `t0 + (i+1)·T` — advanced by
exactly `T` each iteration, never reset to `now + T` — the thread
sleeps `deadline - now` when the deadline is in the future, and an
iteration whose deadline has already passed fires immediately without
sleeping. -/
theorem C6_drift_free_schedule (t0 T : Nat) (nows : List Nat) (i : Nat)
    (h : i < nows.length) :
    (samplerRun t0 T nows).length = nows.length
    ∧ ((samplerRun t0 T nows).getD i ⟨0, 0⟩).deadline = t0 + (i + 1) * T
    ∧ (((samplerRun t0 T nows).getD i ⟨0, 0⟩).deadline ≤ nows.getD i 0 →
        ((samplerRun t0 T nows).getD i ⟨0, 0⟩).slept = 0)
    ∧ (nows.getD i 0 < ((samplerRun t0 T nows).getD i ⟨0, 0⟩).deadline →
        ((samplerRun t0 T nows).getD i ⟨0, 0⟩).slept
          = ((samplerRun t0 T nows).getD i ⟨0, 0⟩).deadline - nows.getD i 0) := by
  have hlen := samplerSchedule_length T nows (t0 + T)
  have hget := samplerSchedule_getD T nows (t0 + T) i h
  have harith : t0 + T + i * T = t0 + (i + 1) * T := by ring
  unfold samplerRun
  rw [hget, harith]
  dsimp only
  refine ⟨hlen, rfl, ?_, ?_⟩
  · intro hle
    rw [if_neg (by omega)]
  · intro hlt
    rw [if_pos hlt]

/-- Witness for C6: thread start at 0, period 100, first iteration
observed at 30 (sleeps 70), second at 250 (deadline 200 already past:
no sleep). -/
theorem C6_drift_free_schedule_witness :
    (1 : Nat) < ([30, 250] : List Nat).length
    ∧ ((samplerRun 0 100 [30, 250]).getD 0 ⟨0, 0⟩).deadline = 100
    ∧ ((samplerRun 0 100 [30, 250]).getD 0 ⟨0, 0⟩).slept = 70
    ∧ ((samplerRun 0 100 [30, 250]).getD 1 ⟨0, 0⟩).deadline = 200
    ∧ ((samplerRun 0 100 [30, 250]).getD 1 ⟨0, 0⟩).slept = 0 := by
  refine ⟨by decide, ?_, by decide, ?_, by decide⟩
  · have := (C6_drift_free_schedule 0 100 [30, 250] 0 (by decide)).2.1
    simpa using this
  · have := (C6_drift_free_schedule 0 100 [30, 250] 1 (by decide)).2.1
    simpa using this

/-- C7: in the sender loop, from any live state with a full error
budget, two consecutive failures leave the loop live with one remaining
error and a third consecutive failure aborts it; any successful send
resets the budget to `ERRORS` (3); and exactly `TRIES` (100) successful
sends end the loop by publishing the final `Exit` (fewer leave it
live). -/
theorem C7_sender_policy :
    (∀ (pre : List SendOutcome) (m : Nat),
        senderRun TRIES ERRORS pre = .running m 3 →
          senderRun TRIES ERRORS (pre ++ [.failure, .failure]) = .running m 1
          ∧ senderRun TRIES ERRORS (pre ++ [.failure, .failure, .failure]) = .aborted)
    ∧ (∀ (m e : Nat) (rest : List SendOutcome), 2 ≤ m →
        senderRun m e (.success :: rest) = senderRun (m - 1) ERRORS rest)
    ∧ senderRun TRIES ERRORS (List.replicate TRIES .success) = .exitSent
    ∧ (∀ k, k < TRIES →
        senderRun TRIES ERRORS (List.replicate k .success)
          = .running (TRIES - k) (if k = 0 then ERRORS else ERRORS)) := by
  refine ⟨?_, ?_, ?_, ?_⟩
  · intro pre m h
    constructor
    · rw [senderRun_append, h]
      rfl
    · rw [senderRun_append, h]
      rfl
  · intro m e rest h
    have : ¬(m - 1 = 0) := by omega
    simp [senderRun, this]
  · exact senderRun_all_successes TRIES ERRORS (by norm_num [TRIES])
  · intro k hk
    exact senderRun_successes k TRIES ERRORS hk

/-- Witness for C7 at concrete outcome lists. -/
theorem C7_sender_policy_witness :
    senderRun TRIES ERRORS ([] ++ [.failure, .failure, .failure]) = .aborted
    ∧ senderRun 100 7 (.success :: []) = senderRun 99 ERRORS []
    ∧ senderRun TRIES ERRORS (List.replicate TRIES .success) = .exitSent
    ∧ senderRun TRIES ERRORS (List.replicate 99 .success) = .running 1 ERRORS :=
  ⟨(C7_sender_policy.1 [] TRIES rfl).2,
    C7_sender_policy.2.1 100 7 [] (by norm_num),
    C7_sender_policy.2.2.1,
    by
      have := C7_sender_policy.2.2.2 99 (by norm_num [TRIES])
      simpa [TRIES] using this⟩

/-- C8 counterexample: a connection-reset read error — not one of the
transient kinds — makes the loop `continue`, not terminate, refuting
the claim that every non-transient read error ends the connection
task. -/
theorem C8_nontransient_counterexample :
    ReadErrorKind.connectionReset.transient = false
    ∧ connReadStep (.err .connectionReset) = .continueLoop
    ∧ ConnStep.continueLoop ≠ ConnStep.endTask := by
  decide

/-- C8 (amended): in the receiver's per-connection read loop, every
read error — transient or not — is logged and the loop continues; a
read returning 0 bytes ends the task; a nonzero read proceeds to
decode the chunk. -/
theorem C8_read_loop_policy :
    (∀ k : ReadErrorKind, connReadStep (.err k) = .continueLoop)
    ∧ connReadStep (.ok 0) = .endTask
    ∧ (∀ n : Nat, connReadStep (.ok (n + 1)) = .decodeChunk (n + 1)) :=
  ⟨fun _ => rfl, rfl, fun _ => rfl⟩

/-- C9 counterexample: a 16-byte buffer of 0xFF bytes has first 16
bytes that differ from the expected collector id 0, yet `decode` fails
with the io end-of-file error (reading the version field), not with
the "Invalid collector id" error — so the claim does not hold for
every buffer whose first 16 bytes mismatch. -/
theorem C9_short_buffer_counterexample :
    fromBytesBE ((List.replicate 16 255).take 16) ≠ 0
    ∧ decode 0 (List.replicate 16 255) = .err .eof
    ∧ DecodeResult.err .eof ≠ .err .invalidCollectorId := by
  refine ⟨by decide, ?_, by decide⟩
  exact decode_short 0 (List.replicate 16 255) (by decide)

/-- C9 (amended): `decode` takes the caller's expected collector id and,
on every buffer long enough for all six reads, fails with the "Invalid
collector id" error whenever the first 16 bytes, read big-endian,
differ from that id — the check runs before the version and CRC
checks, so a frame is only decodable by a caller that already knows the
sender's collector id (the spec's envelope carries no such field). -/
theorem C9_wrong_id_rejected (id : Nat) (bs : List Nat)
    (hsz : fromBytesBE ((bs.drop 26).take 4) + 34 ≤ bs.length)
    (hneq : fromBytesBE (bs.take 16) ≠ id) :
    decode id bs = .err .invalidCollectorId :=
  decode_wrong_id id bs hsz hneq

/-- Witness for C9 (amended): a 34-byte all-zero buffer (payload length
0) against expected id 1. -/
theorem C9_wrong_id_rejected_witness :
    fromBytesBE (((List.replicate 34 0).drop 26).take 4) + 34 ≤ (List.replicate 34 0).length
    ∧ fromBytesBE ((List.replicate 34 0).take 16) ≠ 1
    ∧ decode 1 (List.replicate 34 0) = .err .invalidCollectorId :=
  ⟨by decide, by decide,
    C9_wrong_id_rejected 1 (List.replicate 34 0) (by decide) (by decide)⟩

/-- C10: `Signal::wait_timeout` with a zero duration does not time out
immediately: it delegates to `Signal::wait`, blocking with no deadline
until the signal is set — never returning if it never is — and then
always returns `true`, however late the set arrives; whereas any
nonzero timeout does expire when the set comes at or after the
deadline. -/
theorem C10_zero_timeout_waits_forever :
    signalWaitTimeout 0 none = none
    ∧ (∀ t : Nat, signalWaitTimeout 0 (some t) = some true)
    ∧ (∀ setAt : Option Nat,
        signalWaitTimeout 0 setAt = (signalWait setAt).map fun _ => true)
    ∧ (∀ t d : Nat, 0 < d → d ≤ t → signalWaitTimeout d (some t) = some false) := by
  refine ⟨rfl, fun t => rfl, fun setAt => rfl, ?_⟩
  intro t d hd hdt
  unfold signalWaitTimeout
  rw [if_neg (by omega)]
  show (if t < d then some true else some false) = some false
  rw [if_neg (by omega)]

/-- Witness for C10: with the signal set only at time 1000000, a zero
timeout still returns `true`, while a timeout of 5 returns `false`. -/
theorem C10_zero_timeout_waits_forever_witness :
    signalWaitTimeout 0 (some 1000000) = some true
    ∧ signalWaitTimeout 5 (some 1000000) = some false :=
  ⟨C10_zero_timeout_waits_forever.2.1 1000000,
    C10_zero_timeout_waits_forever.2.2.2 1000000 5 (by norm_num) (by norm_num)⟩
